import Mathlib

/-!
Verification of the serialized read-modify-write storage engine of
`gladkikhartem/cdtools` (file `db.go`: `Store`, `Flush`, `FlushLoop`,
`Singleton`, `singletonUpdate`, `kmutex`).

The Go code is shallowly embedded:

* `fnv1a64` embeds the `hash/fnv` 64-bit FNV-1a hash used by
  `singletonUpdate` and `Store.notifier` (64-bit wraparound is modelled
  with `% 2^64`).
* `Flush` embeds `Store.Flush` as a pure state transformer; a pebble
  error from `LogData` or `Commit` makes the Go code `panic`, modelled
  by returning `none`.
* `Conf`/`step`/`run` is a small-step interleaving machine for the
  engine: each atomic section of `Store.Singleton` (one critical
  section under `p.mu`, one `kmutex` operation, the mutator call, the
  channel wait) is one machine action, and a whole `Store.Flush` call
  is one action.  The caller-supplied mutator (`SingletonFunc`) is not
  under `src`; following §4.4 of the design document it appends its
  writes to the engine's current batch and then returns its result.
* `kmutex` is embedded twice: as a pure data structure (`kmutex.Unlock`
  on a `Finset` of held keys, exactly the Go map) and as a lock
  protocol machine (`KConf`/`kstep`/`runK`) for the mutual-exclusion
  invariant.
* `drain`/`FlushLoopRun` embed `Store.FlushLoop` with explicit fuel;
  the `ctx` argument gives, per loop iteration, whether `ctx.Done()`
  is already closed.
-/

namespace CDTools

/-- Byte strings (Go `[]byte`) as lists of byte values. -/
abbrev Bytes := List Nat

/-- Source constant `mCount = 100`: the number of `kmutex` shards and of
`notifier` shards in `Store`. -/
def mCount : Nat := 100

/-- The 64-bit FNV-1a hash of the bytes of `key`, as computed by
`fnv.New64a(); h.Write(key); h.Sum64()` in `singletonUpdate` and
`Store.notifier`: start from the offset basis `14695981039346656037`,
and for each byte xor it in and multiply by the prime `1099511628211`
modulo `2^64`. -/
def fnv1a64 (key : Bytes) : Nat :=
  key.foldl (fun h b => ((h ^^^ (b % 256)) * 1099511628211) % 18446744073709551616)
    14695981039346656037

/-- One record of a pebble batch / WAL: either a user write issued by a
mutator (identified by an abstract payload id) or the no-op log marker
`b.LogData([]byte("f"), pebble.Sync)` appended by `Store.Flush`. -/
inductive Entry
  | data (id : Nat)
  | marker
deriving DecidableEq, Repr

/-- Engine-plus-store state: the fields of Go `Store` that `Flush`,
`FlushLoop` and `Singleton` touch, together with the backing pebble
store.  `gen` numbers the current `done` channel (`p.done`); `closed`
lists the generations whose channel has been closed.  `committed` is
the sequence of batches the store has committed, each tagged with
whether the commit used `pebble.Sync`.  `logErr`/`commitErr` say
whether the store reports an error from `LogData`/`Commit`. -/
structure MState where
  stopped : Bool
  pending : Int
  count : Nat
  gen : Nat
  closed : List Nat
  batch : List Entry
  committed : List (List Entry × Bool)
  held : List Nat
  logErr : Bool
  commitErr : Bool
deriving DecidableEq, Repr

/-- Embedding of `Store.Flush`: under `p.mu` read `count` and `pending`,
take the current batch and `done` channel, install a fresh batch and a
fresh channel, reset `count`; outside the lock, if `count > 0` append
the log marker and commit the taken batch with `pebble.Sync` (a
`panic` on either error is modelled as `none`); finally close the
taken channel and return `pending`. -/
def Flush (s : MState) : Option (MState × Int) :=
  let count := s.count
  let pending := s.pending
  let oldGen := s.gen
  let oldBatch := s.batch
  let s1 : MState := { s with count := 0, batch := [], gen := s.gen + 1 }
  if count > 0 then
    if s.logErr then none
    else if s.commitErr then none
    else
      let s2 := { s1 with committed := s1.committed ++ [(oldBatch ++ [Entry.marker], true)] }
      some ({ s2 with closed := oldGen :: s2.closed }, pending)
  else
    some ({ s1 with closed := oldGen :: s1.closed }, pending)

/-- Claim C3: a flush that observes `count == 0` performs no operation on
the backing store — `committed` is unchanged, no marker is appended —
yet it still installs a fresh (empty) batch and a fresh generation,
resets nothing else, closes the generation it swapped out, and returns
`pending`. -/
theorem flush_zero_count_frame (s : MState) (h : s.count = 0) :
    Flush s =
      some ({ s with
              count := 0
              batch := []
              gen := s.gen + 1
              closed := s.gen :: s.closed }, s.pending) := by
  simp [Flush, h]

/-- Witness for `flush_zero_count_frame` at a concrete state. -/
theorem flush_zero_count_frame_witness :
    Flush { stopped := false, pending := 2, count := 0, gen := 5, closed := [4],
            batch := [Entry.data 9], committed := [([Entry.marker], true)],
            held := [3], logErr := false, commitErr := false } =
      some ({ stopped := false, pending := 2, count := 0, gen := 6, closed := [5, 4],
              batch := [], committed := [([Entry.marker], true)],
              held := [3], logErr := false, commitErr := false }, 2) := by
  have := flush_zero_count_frame
    { stopped := false, pending := 2, count := 0, gen := 5, closed := [4],
      batch := [Entry.data 9], committed := [([Entry.marker], true)],
      held := [3], logErr := false, commitErr := false } rfl
  simpa using this

/-- Claim C4: a flush that observes `count > 0` appends the log marker to
the taken batch and commits it with sync durability; an error from
either `LogData` or `Commit` makes the engine panic (`none`) instead of
returning an error or closing the generation. -/
theorem flush_positive_count (s : MState) (h : 0 < s.count) :
    (s.logErr = true → Flush s = none) ∧
    (s.logErr = false → s.commitErr = true → Flush s = none) ∧
    (s.logErr = false → s.commitErr = false →
      Flush s =
        some ({ s with
                count := 0
                batch := []
                gen := s.gen + 1
                committed := s.committed ++ [(s.batch ++ [Entry.marker], true)]
                closed := s.gen :: s.closed }, s.pending)) := by
  refine ⟨fun hl => ?_, fun hl hc => ?_, fun hl hc => ?_⟩ <;>
    simp [Flush, h, hl]
  · simp [hc]
  · simp [hc]

/-- Witness for `flush_positive_count`: the success branch, the
`LogData`-error branch and the `Commit`-error branch each evaluated at a
concrete state with `count = 1`. -/
theorem flush_positive_count_witness :
    Flush { stopped := false, pending := 1, count := 1, gen := 0, closed := [],
            batch := [Entry.data 7], committed := [], held := [],
            logErr := false, commitErr := false } =
      some ({ stopped := false, pending := 1, count := 0, gen := 1, closed := [0],
              batch := [], committed := [([Entry.data 7, Entry.marker], true)],
              held := [], logErr := false, commitErr := false }, 1) ∧
    Flush { stopped := false, pending := 1, count := 1, gen := 0, closed := [],
            batch := [Entry.data 7], committed := [], held := [],
            logErr := true, commitErr := false } = none ∧
    Flush { stopped := false, pending := 1, count := 1, gen := 0, closed := [],
            batch := [Entry.data 7], committed := [], held := [],
            logErr := false, commitErr := true } = none := by
  refine ⟨?_, ?_, ?_⟩
  · have := (flush_positive_count
      { stopped := false, pending := 1, count := 1, gen := 0, closed := [],
        batch := [Entry.data 7], committed := [], held := [],
        logErr := false, commitErr := false } (by decide)).2.2 rfl rfl
    simpa using this
  · exact (flush_positive_count
      { stopped := false, pending := 1, count := 1, gen := 0, closed := [],
        batch := [Entry.data 7], committed := [], held := [],
        logErr := true, commitErr := false } (by decide)).1 rfl
  · exact ((flush_positive_count
      { stopped := false, pending := 1, count := 1, gen := 0, closed := [],
        batch := [Entry.data 7], committed := [], held := [],
        logErr := false, commitErr := true } (by decide)).2.1) rfl rfl

/-- Mutator / engine errors surfaced by `Store.Singleton`:
`shuttingDown` is `fmt.Errorf("DB stopped")`, `mutErr code` is an error
returned by the caller-supplied `SingletonFunc`. -/
inductive GoErr
  | shuttingDown
  | mutErr (code : Nat)
deriving DecidableEq, Repr

/-- What a waiting `Singleton` caller blocks on.  `engineDone g` is the
engine-wide `p.done` channel of generation `g` (the one `Singleton`
actually reads at `done := p.done`).  `shardNotifier i g` is a
generation handle of the per-shard notifier `p.nf[i]`; the `notifier`
type itself is not under `src` and is modelled from the spec (§4.2: a
handle that unblocks when its generation is closed).  Nothing in
`db.go` ever closes a notifier generation. -/
inductive WaitTarget
  | engineDone (g : Nat)
  | shardNotifier (shard : Nat) (g : Nat)
deriving DecidableEq, Repr

/-- Program counter of one `Store.Singleton` call, one value per atomic
section of the Go code: `ready` (before the first `p.mu` critical
section), `locking` (blocked in `kmu.Lock`), `mutating` (about to run
`f`), `unlocking` (about to run the deferred `kmu.Unlock`), `afterMut`
(`singletonUpdate` returned), `waiting` (blocked on `<-done`),
`finishing` (woken, about to run the deferred `pending--`), and the
terminal `doneOk` / `doneErr`. -/
inductive Pc
  | ready
  | locking
  | mutating
  | unlocking
  | afterMut
  | waiting (tg : WaitTarget)
  | finishing
  | doneOk
  | doneErr (e : GoErr)
deriving DecidableEq, Repr

/-- One `Singleton` caller: its key, the writes its mutator appends to
the current batch before returning (§4.4 step 3; the mutator bodies are
HTTP handlers not under `src`), the mutator's result (`some code` =
error), and its program counter. -/
structure Thread where
  key : Bytes
  writes : List Nat
  res : Option Nat
  pc : Pc
deriving DecidableEq, Repr

/-- A machine configuration: the shared engine/store state plus the
threads, identified by their index. -/
structure Conf where
  st : MState
  thr : List Thread
deriving DecidableEq, Repr

/-- Whether a wait target has been signalled in state `s`: the `done`
channel of generation `g` is closed iff `g ∈ s.closed`; no code in
`db.go` closes a notifier generation, so a `shardNotifier` handle never
unblocks. -/
def targetClosed (s : MState) : WaitTarget → Bool
  | .engineDone g => s.closed.contains g
  | .shardNotifier _ _ => false

/-- Atomic machine actions: the numbered sections of `Store.Singleton`
for thread `t`, and one whole `Store.Flush` call by the flush loop. -/
inductive Act
  | enter (t : Nat)
  | lockKey (t : Nat)
  | mutate (t : Nat)
  | unlockKey (t : Nat)
  | failExit (t : Nat)
  | snapshot (t : Nat)
  | await (t : Nat)
  | finish (t : Nat)
  | flush
deriving DecidableEq, Repr

/-- Apply a joint update to thread `t` and the shared state; a missing
thread index is a stutter. -/
def stepAt (c : Conf) (t : Nat) (f : MState → Thread → MState × Thread) : Conf :=
  match c.thr[t]? with
  | none => c
  | some th =>
    let p := f c.st th
    { st := p.1, thr := c.thr.set t p.2 }

/-- The first `p.mu` section of `Singleton`: if `stopped`, return the
`DB stopped` error; else `pending++; count++` and proceed to
`kmu.Lock` (nonempty key) or directly to the mutator (empty key, which
`singletonUpdate` leaves unserialized). -/
def enterSec (s : MState) (th : Thread) : MState × Thread :=
  if th.pc = .ready then
    if s.stopped then (s, { th with pc := .doneErr .shuttingDown })
    else ({ s with pending := s.pending + 1, count := s.count + 1 },
          { th with pc := if th.key = [] then .mutating else .locking })
  else (s, th)

/-- The call `p.kmu[kid%mCount].Lock(kid)` with `kid = fnv1a64 key`:
enabled only while `kid` is absent from the held set, then marks it
held. -/
def lockSec (s : MState) (th : Thread) : MState × Thread :=
  if th.pc = .locking then
    let kid := fnv1a64 th.key
    if s.held.contains kid then (s, th)
    else ({ s with held := kid :: s.held }, { th with pc := .mutating })
  else (s, th)

/-- Run the mutator `f`, appending its writes to the engine's current
batch (§4.4 step 3). -/
def mutateSec (s : MState) (th : Thread) : MState × Thread :=
  if th.pc = .mutating then
    ({ s with batch := s.batch ++ th.writes.map Entry.data },
     { th with pc := if th.key = [] then .afterMut else .unlocking })
  else (s, th)

/-- The deferred `Unlock(kid)`; its broadcast is modelled by lock guards
being re-evaluated at every step. -/
def unlockSec (s : MState) (th : Thread) : MState × Thread :=
  if th.pc = .unlocking then
    ({ s with held := s.held.erase (fnv1a64 th.key) }, { th with pc := .afterMut })
  else (s, th)

/-- The `if err != nil` return of `Singleton`: run the deferred
`pending--` and terminate with the mutator error, never waiting on the
generation. -/
def failSec (s : MState) (th : Thread) : MState × Thread :=
  match th.pc, th.res with
  | .afterMut, some e =>
      ({ s with pending := s.pending - 1 }, { th with pc := .doneErr (.mutErr e) })
  | _, _ => (s, th)

/-- The second `p.mu` section of `Singleton`: read the current `p.done`
channel (`done := p.done`). -/
def snapshotSec (s : MState) (th : Thread) : MState × Thread :=
  match th.pc, th.res with
  | .afterMut, none => (s, { th with pc := .waiting (.engineDone s.gen) })
  | _, _ => (s, th)

/-- The channel receive `<-done`: enabled once the awaited generation
is closed. -/
def awaitSec (s : MState) (th : Thread) : MState × Thread :=
  match th.pc with
  | .waiting tg => if targetClosed s tg then (s, { th with pc := .finishing }) else (s, th)
  | _ => (s, th)

/-- The deferred `pending--` followed by `return nil`. -/
def finishSec (s : MState) (th : Thread) : MState × Thread :=
  if th.pc = .finishing then
    ({ s with pending := s.pending - 1 }, { th with pc := .doneOk })
  else (s, th)

/-- Small-step semantics: each action runs one atomic section of
`Store.Singleton` for thread `t`, or one whole `Store.Flush` call.  An
action whose guard does not hold (wrong pc, key lock held by someone
else, channel not yet closed) is a stutter; `none` is a `panic` inside
`Flush`. -/
def step (c : Conf) : Act → Option Conf
  | .flush =>
    match Flush c.st with
    | none => none
    | some p => some { c with st := p.1 }
  | .enter t => some (stepAt c t enterSec)
  | .lockKey t => some (stepAt c t lockSec)
  | .mutate t => some (stepAt c t mutateSec)
  | .unlockKey t => some (stepAt c t unlockSec)
  | .failExit t => some (stepAt c t failSec)
  | .snapshot t => some (stepAt c t snapshotSec)
  | .await t => some (stepAt c t awaitSec)
  | .finish t => some (stepAt c t finishSec)

/-- Run a schedule of actions from a configuration. -/
def run (c : Conf) (acts : List Act) : Option Conf :=
  acts.foldlM step c

/-- A thread that has not started yet. -/
def mkThread (key : Bytes) (writes : List Nat) (res : Option Nat) : Thread :=
  { key := key, writes := writes, res := res, pc := .ready }

/-- The state `NewStore` builds: fresh empty batch, generation 0 open,
nothing committed, no key held, not stopped. -/
def initState : MState :=
  { stopped := false, pending := 0, count := 0, gen := 0, closed := [], batch := []
    committed := [], held := [], logErr := false, commitErr := false }

/-- An initial configuration: `NewStore` state plus a set of callers
that have not entered yet. -/
def initConf (ts : List (Bytes × List Nat × Option Nat)) : Conf :=
  { st := initState, thr := ts.map fun x => mkThread x.1 x.2.1 x.2.2 }

/-- Claim C5: an update that enters while `stopped` is true fails with
the `ShuttingDown` error and changes nothing: the resulting
configuration has the same engine state (`pending`, `count`, `batch`,
`held`, everything) and the thread goes directly to the terminal error
pc, so no per-key lock is ever taken and the mutator never runs. -/
theorem singleton_rejected_when_stopped (c : Conf) (t : Nat) (th : Thread)
    (hth : c.thr[t]? = some th) (hpc : th.pc = .ready) (hstop : c.st.stopped = true) :
    step c (.enter t) =
      some { st := c.st, thr := c.thr.set t { th with pc := .doneErr .shuttingDown } } := by
  simp [step, stepAt, enterSec, hth, hpc, hstop]

/-- Witness for `singleton_rejected_when_stopped` at a concrete
configuration with one ready thread and `stopped = true`. -/
theorem singleton_rejected_when_stopped_witness :
    step { st := { initState with stopped := true }, thr := [mkThread [97] [1] none] }
        (.enter 0) =
      some { st := { initState with stopped := true }
             thr := [{ mkThread [97] [1] none with pc := .doneErr .shuttingDown }] } := by
  have := singleton_rejected_when_stopped
    { st := { initState with stopped := true }, thr := [mkThread [97] [1] none] }
    0 (mkThread [97] [1] none) rfl rfl rfl
  simpa using this

/-- A single caller on key `"a"` (byte 97) whose mutator appends one
write (id 5) and succeeds. -/
def lostWriteInit : Conf := initConf [([97], [5], none)]

/-- A legal interleaving of that caller with two `Store.Flush` calls of
the flush loop: the first flush runs between the caller's entry section
(`pending++; count++`) and its mutator, the second between the caller's
`done := p.done` snapshot and its wait.  Every action here is one
atomic section of the Go code, scheduled in program order for the
caller. -/
def lostWriteSchedule : List Act :=
  [.enter 0, .flush, .lockKey 0, .mutate 0, .unlockKey 0,
   .snapshot 0, .flush, .await 0, .finish 0]

/-- The configuration this schedule produces: the first flush saw
`count = 1` and sync-committed the still-empty batch (marker only); the
caller's write `data 5` then went into the next batch; the second flush
saw `count = 0`, so it discarded that batch without committing it and
closed generation 1 — the very generation the caller was waiting on. -/
def lostWriteFinal : Conf :=
  { st := { stopped := false, pending := 0, count := 0, gen := 2, closed := [1, 0]
            batch := [], committed := [([Entry.marker], true)], held := []
            logErr := false, commitErr := false }
    thr := [{ key := [97], writes := [5], res := none, pc := .doneOk }] }

/-- Claim C1 fails on the code: under the schedule `lostWriteSchedule`
the update returns success (`doneOk`, and `Singleton` returns `nil`),
yet its write `data 5` is in no committed batch and not even in the
current batch — it was discarded, unsynced, by the `count == 0` flush.
`count` is reset by every flush, so an update that entered before one
flush and ran its mutator after it leaves its writes in a batch whose
flush can see `count == 0` and skip the sync commit, while still
closing the generation the update waits on.  This contradicts both the
claim and the engine's own header comment ("after Update function
returns - update was written to disk"). -/
theorem singleton_success_with_lost_write :
    run lostWriteInit lostWriteSchedule = some lostWriteFinal ∧
    lostWriteFinal.thr.map Thread.pc = [Pc.doneOk] ∧
    lostWriteFinal.st.batch.contains (Entry.data 5) = false ∧
    (lostWriteFinal.st.committed.map Prod.fst).all
      (fun b => !b.contains (Entry.data 5)) = true := by
  refine ⟨by decide, by decide, by decide, by decide⟩

/-- Claim C6: when the mutator of a (nonempty-key) update fails with
error `e`, the remaining path of `Singleton` releases the per-key lock,
decrements `pending` exactly once, and terminates with the mutator
error without ever waiting on the flush generation; the writes the
mutator appended stay in the current batch, `count` is not rolled back
(the final state differs from `c.st` only in `batch`, `held` and
`pending`), and a subsequent flush that still sees `count > 0`
sync-commits a batch containing every one of those writes. -/
theorem singleton_mutator_error_path (c : Conf) (t : Nat) (th : Thread) (e : Nat)
    (hth : c.thr[t]? = some th) (hpc : th.pc = .mutating) (hres : th.res = some e)
    (hkey : th.key ≠ []) :
    run c [.mutate t, .unlockKey t, .failExit t] =
      some { st := { c.st with
                     batch := c.st.batch ++ th.writes.map Entry.data
                     held := (c.st.held).erase (fnv1a64 th.key)
                     pending := c.st.pending - 1 }
             thr := c.thr.set t { th with pc := .doneErr (.mutErr e) } } ∧
    (0 < c.st.count → c.st.logErr = false → c.st.commitErr = false →
      ∃ s2, Flush { c.st with
                    batch := c.st.batch ++ th.writes.map Entry.data
                    held := (c.st.held).erase (fnv1a64 th.key)
                    pending := c.st.pending - 1 } =
          some (s2, c.st.pending - 1) ∧
        (c.st.batch ++ th.writes.map Entry.data ++ [Entry.marker], true) ∈ s2.committed) := by
  have hlt : t < c.thr.length := (List.getElem?_eq_some.mp hth).1
  constructor
  · have hkey2 : (th.key = []) = False := by simp [hkey]
    simp [run, step, stepAt, mutateSec, unlockSec, failSec, hth, hpc, hres, hkey2,
      List.getElem?_set_self, hlt, List.set_set]
  · intro hc hl hcm
    refine ⟨{ c.st with
              count := 0
              batch := []
              gen := c.st.gen + 1
              committed := c.st.committed ++
                [(c.st.batch ++ th.writes.map Entry.data ++ [Entry.marker], true)]
              closed := c.st.gen :: c.st.closed
              held := (c.st.held).erase (fnv1a64 th.key)
              pending := c.st.pending - 1 }, ?_, ?_⟩
    · simp [Flush, hc, hl, hcm]
    · simp

/-- Witness for `singleton_mutator_error_path`: one thread on key
`[97]`, one prior entry in the batch, `count = 1`, mutator failing with
code 3. -/
theorem singleton_mutator_error_path_witness :
    run { st := { stopped := false, pending := 1, count := 1, gen := 0, closed := []
                  batch := [Entry.data 9], committed := [], held := [fnv1a64 [97]]
                  logErr := false, commitErr := false }
          thr := [{ key := [97], writes := [5], res := some 3, pc := .mutating }] }
        [.mutate 0, .unlockKey 0, .failExit 0] =
      some { st := { stopped := false, pending := 0, count := 1, gen := 0, closed := []
                     batch := [Entry.data 9, Entry.data 5], committed := [], held := []
                     logErr := false, commitErr := false }
             thr := [{ key := [97], writes := [5], res := some 3
                       pc := .doneErr (.mutErr 3) }] } := by
  have h := singleton_mutator_error_path
    { st := { stopped := false, pending := 1, count := 1, gen := 0, closed := []
              batch := [Entry.data 9], committed := [], held := [fnv1a64 [97]]
              logErr := false, commitErr := false }
      thr := [{ key := [97], writes := [5], res := some 3, pc := .mutating }] }
    0 { key := [97], writes := [5], res := some 3, pc := .mutating } 3
    rfl rfl rfl (by decide)
  have h1 := h.1
  simpa [List.erase_cons] using h1

/-- Setting a list index to the element it already holds is the
identity. -/
lemma set_getElem_self {α : Type} (l : List α) (i : Nat) (a : α) (h : l[i]? = some a) :
    l.set i a = l := by
  apply List.ext_getElem?
  intro n
  rcases eq_or_ne n i with rfl | hn
  · rw [List.getElem?_set_self (List.getElem?_eq_some.mp h).1]
    exact h.symm
  · rw [List.getElem?_set_ne (Ne.symm hn)]

/-- Every `Flush` call, on both the `count > 0` and the `count == 0`
path, closes exactly the generation it swapped out. -/
lemma Flush_closed_eq (s : MState) (p : MState × Int) (h : Flush s = some p) :
    p.1.closed = s.gen :: s.closed := by
  unfold Flush at h
  by_cases hc : 0 < s.count
  · by_cases hl : s.logErr
    · simp [hc, hl] at h
    · by_cases hcm : s.commitErr
      · simp [hc, hl, hcm] at h
      · simp [hc, hl, hcm] at h
        subst h
        rfl
  · simp [hc] at h
    subst h
    rfl

/-- A per-thread section that leaves `closed` unchanged lifts through
`stepAt`. -/
lemma stepAt_closed (c : Conf) (t : Nat) (f : MState → Thread → MState × Thread)
    (hf : ∀ s th, (f s th).1.closed = s.closed) :
    (stepAt c t f).st.closed = c.st.closed := by
  unfold stepAt
  cases c.thr[t]? <;> simp [hf]

lemma enterSec_closed (s : MState) (th : Thread) : (enterSec s th).1.closed = s.closed := by
  unfold enterSec; split_ifs <;> rfl

lemma lockSec_closed (s : MState) (th : Thread) : (lockSec s th).1.closed = s.closed := by
  simp only [lockSec]; split_ifs <;> rfl

lemma mutateSec_closed (s : MState) (th : Thread) : (mutateSec s th).1.closed = s.closed := by
  unfold mutateSec; split_ifs <;> rfl

lemma unlockSec_closed (s : MState) (th : Thread) : (unlockSec s th).1.closed = s.closed := by
  unfold unlockSec; split_ifs <;> rfl

lemma failSec_closed (s : MState) (th : Thread) : (failSec s th).1.closed = s.closed := by
  unfold failSec; split <;> rfl

lemma snapshotSec_closed (s : MState) (th : Thread) :
    (snapshotSec s th).1.closed = s.closed := by
  unfold snapshotSec; split <;> rfl

lemma awaitSec_closed (s : MState) (th : Thread) : (awaitSec s th).1.closed = s.closed := by
  unfold awaitSec; split
  · split_ifs <;> rfl
  · rfl

lemma finishSec_closed (s : MState) (th : Thread) : (finishSec s th).1.closed = s.closed := by
  unfold finishSec; split_ifs <;> rfl

/-- No machine step ever reopens a closed generation: the set of closed
generations only grows. -/
lemma step_closed_mono (c : Conf) (a : Act) (c2 : Conf) (h : step c a = some c2)
    (g : Nat) (hg : g ∈ c.st.closed) : g ∈ c2.st.closed := by
  cases a with
  | flush =>
    unfold step at h
    cases hF : Flush c.st with
    | none => rw [hF] at h; cases h
    | some p =>
      rw [hF] at h
      have h2 : ({ c with st := p.1 } : Conf) = c2 := by
        simpa using h
      have hcl := Flush_closed_eq c.st p hF
      rw [← h2]
      simp only [hcl]
      exact List.mem_cons_of_mem _ hg
  | enter t =>
    have h2 : stepAt c t enterSec = c2 := by simpa [step] using h
    rw [← h2, stepAt_closed c t enterSec enterSec_closed]; exact hg
  | lockKey t =>
    have h2 : stepAt c t lockSec = c2 := by simpa [step] using h
    rw [← h2, stepAt_closed c t lockSec lockSec_closed]; exact hg
  | mutate t =>
    have h2 : stepAt c t mutateSec = c2 := by simpa [step] using h
    rw [← h2, stepAt_closed c t mutateSec mutateSec_closed]; exact hg
  | unlockKey t =>
    have h2 : stepAt c t unlockSec = c2 := by simpa [step] using h
    rw [← h2, stepAt_closed c t unlockSec unlockSec_closed]; exact hg
  | failExit t =>
    have h2 : stepAt c t failSec = c2 := by simpa [step] using h
    rw [← h2, stepAt_closed c t failSec failSec_closed]; exact hg
  | snapshot t =>
    have h2 : stepAt c t snapshotSec = c2 := by simpa [step] using h
    rw [← h2, stepAt_closed c t snapshotSec snapshotSec_closed]; exact hg
  | await t =>
    have h2 : stepAt c t awaitSec = c2 := by simpa [step] using h
    rw [← h2, stepAt_closed c t awaitSec awaitSec_closed]; exact hg
  | finish t =>
    have h2 : stepAt c t finishSec = c2 := by simpa [step] using h
    rw [← h2, stepAt_closed c t finishSec finishSec_closed]; exact hg

/-- Claim C8 as stated: in every execution from an initial
configuration, a caller that is blocked waiting for durability waits on
a generation handle of the per-shard notifier `p.nf[fnv1a64 key %
mCount]` selected by its key. -/
def updateWaitsViaShardNotifier : Prop :=
  ∀ (ts : List (Bytes × List Nat × Option Nat)) (acts : List Act) (c : Conf)
    (t : Nat) (th : Thread) (tg : WaitTarget),
    run (initConf ts) acts = some c → c.thr[t]? = some th → th.pc = .waiting tg →
    ∃ g, tg = .shardNotifier (fnv1a64 th.key % mCount) g

/-- Claim C8 fails on the code: `Singleton` never touches `p.nf`.  A
single caller on key `[97]`, run to its wait, blocks on the engine-wide
`p.done` channel (`WaitTarget.engineDone 0`), not on any notifier
handle.  `Store.notifier` exists but no code under `src` calls it. -/
theorem update_wait_target_not_shard_notifier : ¬ updateWaitsViaShardNotifier := by
  intro h
  obtain ⟨g, hg⟩ := h [([97], [5], none)]
    [.enter 0, .lockKey 0, .mutate 0, .unlockKey 0, .snapshot 0]
    { st := { stopped := false, pending := 1, count := 1, gen := 0, closed := []
              batch := [Entry.data 5], committed := [], held := []
              logErr := false, commitErr := false }
      thr := [{ key := [97], writes := [5], res := none
                pc := .waiting (.engineDone 0) }] }
    0 { key := [97], writes := [5], res := none, pc := .waiting (.engineDone 0) }
    (.engineDone 0) (by decide) (by decide) rfl
  cases hg

/-- Claim C8 amended: `Singleton` signals durability through the
engine-wide `p.done` channel, not through a per-shard notifier.  The
snapshot section, run under the engine lock, hands the caller the
handle of the generation that is current at that instant; the wait then
unblocks exactly when that specific generation is closed (it stutters
while the generation is open), and a closed generation can never
reopen. -/
theorem update_waits_on_engine_generation (c : Conf) (t : Nat) (th : Thread) (g : Nat)
    (hth : c.thr[t]? = some th) :
    (th.pc = .afterMut → th.res = none →
      step c (.snapshot t) =
        some { c with thr := c.thr.set t { th with pc := .waiting (.engineDone c.st.gen) } }) ∧
    (th.pc = .waiting (.engineDone g) →
      (c.st.closed.contains g = true →
        step c (.await t) =
          some { c with thr := c.thr.set t { th with pc := .finishing } }) ∧
      (c.st.closed.contains g = false → step c (.await t) = some c)) ∧
    (∀ a c2, step c a = some c2 → ∀ g2, g2 ∈ c.st.closed → g2 ∈ c2.st.closed) := by
  refine ⟨fun hpc hres => ?_, fun hpc => ⟨fun hcl => ?_, fun hcl => ?_⟩, ?_⟩
  · simp [step, stepAt, snapshotSec, hth, hpc, hres]
  · have hg : g ∈ c.st.closed := by simpa using hcl
    simp [step, stepAt, awaitSec, targetClosed, hth, hpc, hg]
  · have hg : g ∉ c.st.closed := by simpa using hcl
    simp [step, stepAt, awaitSec, targetClosed, hth, hpc, hg,
      set_getElem_self c.thr t th hth]
  · exact fun a c2 h g2 hg2 => step_closed_mono c a c2 h g2 hg2

/-- Witness for `update_waits_on_engine_generation`: a caller past its
mutator snapshots the current generation 4; a caller waiting on
generation 4 proceeds once 4 is closed and stutters while it is not. -/
theorem update_waits_on_engine_generation_witness :
    step { st := { initState with gen := 4 }
           thr := [{ key := [97], writes := [], res := none, pc := .afterMut }] }
        (.snapshot 0) =
      some { st := { initState with gen := 4 }
             thr := [{ key := [97], writes := [], res := none
                       pc := .waiting (.engineDone 4) }] } ∧
    step { st := { initState with gen := 5, closed := [4] }
           thr := [{ key := [97], writes := [], res := none
                     pc := .waiting (.engineDone 4) }] }
        (.await 0) =
      some { st := { initState with gen := 5, closed := [4] }
             thr := [{ key := [97], writes := [], res := none, pc := .finishing }] } ∧
    step { st := { initState with gen := 5 }
           thr := [{ key := [97], writes := [], res := none
                     pc := .waiting (.engineDone 4) }] }
        (.await 0) =
      some { st := { initState with gen := 5 }
             thr := [{ key := [97], writes := [], res := none
                       pc := .waiting (.engineDone 4) }] } := by
  refine ⟨?_, ?_, ?_⟩
  · have h := (update_waits_on_engine_generation
      { st := { initState with gen := 4 }
        thr := [{ key := [97], writes := [], res := none, pc := .afterMut }] }
      0 { key := [97], writes := [], res := none, pc := .afterMut } 0 rfl).1 rfl rfl
    simpa using h
  · have h := ((update_waits_on_engine_generation
      { st := { initState with gen := 5, closed := [4] }
        thr := [{ key := [97], writes := [], res := none
                  pc := .waiting (.engineDone 4) }] }
      0 { key := [97], writes := [], res := none, pc := .waiting (.engineDone 4) } 4
      rfl).2.1 rfl).1 (by decide)
    simpa using h
  · have h := ((update_waits_on_engine_generation
      { st := { initState with gen := 5 }
        thr := [{ key := [97], writes := [], res := none
                  pc := .waiting (.engineDone 4) }] }
      0 { key := [97], writes := [], res := none, pc := .waiting (.engineDone 4) } 4
      rfl).2.1 rfl).2 (by decide)
    simpa using h

/-- Events of one `singletonUpdate` call: taking shard
`kid % mCount`'s lock on `kid`, running the mutator, releasing the
lock. -/
inductive SUEv
  | lockEv (shard : Nat) (kid : Nat)
  | runMutator
  | unlockEv (shard : Nat) (kid : Nat)
deriving DecidableEq, Repr

/-- Embedding of `Store.singletonUpdate` as its event trace: for a
nonempty key compute `kid = fnv1a64 key`, take `p.kmu[kid % mCount]`'s
lock on `kid`, run `f`, release (deferred); a zero-length key skips the
lock entirely and just runs `f`. -/
def singletonUpdate (key : Bytes) : List SUEv :=
  if key.length > 0 then
    let kid := fnv1a64 key
    [.lockEv (kid % mCount) kid, .runMutator, .unlockEv (kid % mCount) kid]
  else [.runMutator]

/-- Claim C7: an empty key bypasses the per-key lock entirely (the
mutator runs with no lock event around it); a nonempty key is hashed
with 64-bit FNV-1a and the lock for that hash is taken in shard
`hash % 100` before the mutator and released after it, with the shard
count fixed at 100.  The last conjunct checks `fnv1a64` against the
standard FNV-1a test vector for `"a"` (byte 97). -/
theorem singletonUpdate_key_locking (key : Bytes) :
    (key = [] → singletonUpdate key = [.runMutator]) ∧
    (key ≠ [] →
      singletonUpdate key =
        [.lockEv (fnv1a64 key % 100) (fnv1a64 key), .runMutator,
         .unlockEv (fnv1a64 key % 100) (fnv1a64 key)]) ∧
    mCount = 100 ∧ fnv1a64 [97] = 0xaf63dc4c8601ec8c := by
  refine ⟨fun h => ?_, fun h => ?_, rfl, by decide⟩
  · simp [singletonUpdate, h]
  · have hl : 0 < key.length := List.length_pos.mpr h
    simp [singletonUpdate, hl, mCount]

/-- Witness for `singletonUpdate_key_locking` at the empty key and at
key `[97]`. -/
theorem singletonUpdate_key_locking_witness :
    singletonUpdate [] = [.runMutator] ∧
    singletonUpdate [97] =
      [.lockEv (fnv1a64 [97] % 100) (fnv1a64 [97]), .runMutator,
       .unlockEv (fnv1a64 [97] % 100) (fnv1a64 [97])] := by
  exact ⟨(singletonUpdate_key_locking []).1 rfl,
    (singletonUpdate_key_locking [97]).2.1 (by decide)⟩

/-- One `kmutex` shard's held-key set, the Go `map[uint64]struct{}`
field `s`. -/
structure kmutex where
  s : Finset ℕ
deriving DecidableEq

/-- Go `kmutex.locked`: whether `key` is in the held set. -/
def kmutex.locked (km : kmutex) (key : Nat) : Bool := key ∈ km.s

/-- Go `kmutex.Unlock`: under the shard mutex, `delete(km.s, key)` and
then `km.c.Broadcast()`.  The returned flag records that the broadcast
is unconditionally performed. -/
def kmutex.Unlock (km : kmutex) (key : Nat) : kmutex × Bool :=
  (⟨km.s.erase key⟩, true)

/-- Claim C10: `Unlock` is total — Go `delete` on an absent key is a
no-op and never panics — it removes exactly `key` from the held set
(`key` is absent afterwards, every other key's membership is
preserved, and an un-held `key` leaves the shard unchanged), and it
always broadcasts to the shard's waiters. -/
theorem kmutex_Unlock_safe (km : kmutex) (key k2 : Nat) :
    ((km.Unlock key).1.s = km.s.erase key) ∧
    key ∉ (km.Unlock key).1.s ∧
    (k2 ≠ key → (k2 ∈ (km.Unlock key).1.s ↔ k2 ∈ km.s)) ∧
    (key ∉ km.s → (km.Unlock key).1 = km) ∧
    (km.Unlock key).2 = true := by
  refine ⟨rfl, Finset.not_mem_erase key km.s, fun h => ?_, fun h => ?_, rfl⟩
  · simp [kmutex.Unlock, Finset.mem_erase, h]
  · cases km with
    | mk s => simp [kmutex.Unlock, Finset.erase_eq_of_not_mem h]

/-- Witness for `kmutex_Unlock_safe`: unlocking the un-held key 5 on a
shard holding only 3 leaves the shard unchanged and keeps 3 held. -/
theorem kmutex_Unlock_safe_witness :
    ((⟨{3}⟩ : kmutex).Unlock 5).1 = (⟨{3}⟩ : kmutex) ∧
    (3 : Nat) ∈ ((⟨{3}⟩ : kmutex).Unlock 5).1.s := by
  have h := kmutex_Unlock_safe ⟨{3}⟩ 5 3
  exact ⟨h.2.2.2.1 (by decide), (h.2.2.1 (by decide)).mpr (by decide)⟩

/-- State of one caller of `kmutex.Lock`/`Unlock`: not interested,
blocked in `Lock(kid)`'s wait loop, or holding `kid`.  The shard a
caller talks to is determined by its key: `kid % mCount`; two equal
`kid`s always hit the same shard, so the union of all shards' held
sets faithfully represents the sharded structure. -/
inductive KPc
  | idle
  | wantLock (kid : Nat)
  | holding (kid : Nat)
deriving DecidableEq, Repr

/-- Lock-protocol actions of caller `t`. -/
inductive KAct
  | acquire (t : Nat)
  | release (t : Nat)
deriving DecidableEq, Repr

/-- Held sets of all shards (as one union, see `KPc`) plus the callers.
-/
structure KConf where
  held : Finset ℕ
  ts : List KPc
deriving DecidableEq

/-- One atomic `kmutex` operation, exactly the Go critical sections
under the shard mutex `km.l`: `acquire` is the body of `Lock(kid)` —
it proceeds only when `kid` is absent from the held set (`locked`
returning true keeps the caller in `c.Wait()`, a stutter here) and
then inserts `kid`; `release` is `Unlock(kid)` — it deletes `kid` and
broadcasts, the broadcast being modelled by every blocked `acquire`
being retried at any later step. -/
def kstep (c : KConf) : KAct → KConf
  | .acquire t =>
    match c.ts[t]? with
    | some (.wantLock k) =>
      if k ∈ c.held then c
      else { held := insert k c.held, ts := c.ts.set t (.holding k) }
    | _ => c
  | .release t =>
    match c.ts[t]? with
    | some (.holding k) => { held := c.held.erase k, ts := c.ts.set t .idle }
    | _ => c

/-- Run a sequence of lock-protocol actions. -/
def runK (c : KConf) (acts : List KAct) : KConf := acts.foldl kstep c

/-- Mutual exclusion: every holder's key is registered in the held set,
and no two distinct callers hold the same key at the same instant. -/
def KInv (c : KConf) : Prop :=
  (∀ (t k : Nat), c.ts[t]? = some (KPc.holding k) → k ∈ c.held) ∧
  (∀ (t1 t2 k : Nat), c.ts[t1]? = some (KPc.holding k) →
    c.ts[t2]? = some (KPc.holding k) → t1 = t2)

/-- Initial protocol configuration: empty held set (a fresh `kmutex`
from `newLocker`), every caller wanting its key. -/
def initK (ds : List Nat) : KConf := { held := ∅, ts := ds.map KPc.wantLock }

lemma kstep_inv (c : KConf) (a : KAct) (h : KInv c) : KInv (kstep c a) := by
  obtain ⟨hlink, huniq⟩ := h
  cases a with
  | acquire t =>
    cases hts : c.ts[t]? with
    | none => simpa [kstep, KInv, hts] using ⟨hlink, huniq⟩
    | some p =>
      cases p with
      | idle => simpa [kstep, KInv, hts] using ⟨hlink, huniq⟩
      | holding k => simpa [kstep, KInv, hts] using ⟨hlink, huniq⟩
      | wantLock k =>
        by_cases hk : k ∈ c.held
        · simpa [kstep, KInv, hts, hk] using ⟨hlink, huniq⟩
        · have hgo : kstep c (KAct.acquire t) =
              { held := insert k c.held, ts := c.ts.set t (KPc.holding k) } := by
            simp [kstep, hts, hk]
          rw [hgo]
          have hlen : t < c.ts.length := (List.getElem?_eq_some.mp hts).1
          refine ⟨?_, ?_⟩
          · intro u k2 hu
            rcases eq_or_ne u t with rfl | hut
            · rw [List.getElem?_set_self hlen] at hu
              simp only [Option.some.injEq] at hu
              cases hu
              exact Finset.mem_insert_self _ _
            · rw [List.getElem?_set_ne (Ne.symm hut)] at hu
              exact Finset.mem_insert_of_mem (hlink u k2 hu)
          · intro t1 t2 k2 h1 h2
            rcases eq_or_ne t1 t with rfl | h1t
            · rw [List.getElem?_set_self hlen] at h1
              simp only [Option.some.injEq, KPc.holding.injEq] at h1
              subst h1
              rcases eq_or_ne t2 t1 with rfl | h2t
              · rfl
              · rw [List.getElem?_set_ne (Ne.symm h2t)] at h2
                exact absurd (hlink t2 _ h2) hk
            · rw [List.getElem?_set_ne (Ne.symm h1t)] at h1
              rcases eq_or_ne t2 t with rfl | h2t
              · rw [List.getElem?_set_self hlen] at h2
                simp only [Option.some.injEq, KPc.holding.injEq] at h2
                subst h2
                exact absurd (hlink t1 _ h1) hk
              · rw [List.getElem?_set_ne (Ne.symm h2t)] at h2
                exact huniq t1 t2 k2 h1 h2
  | release t =>
    cases hts : c.ts[t]? with
    | none => simpa [kstep, KInv, hts] using ⟨hlink, huniq⟩
    | some p =>
      cases p with
      | idle => simpa [kstep, KInv, hts] using ⟨hlink, huniq⟩
      | wantLock k => simpa [kstep, KInv, hts] using ⟨hlink, huniq⟩
      | holding k =>
        have hgo : kstep c (KAct.release t) =
            { held := c.held.erase k, ts := c.ts.set t KPc.idle } := by
          simp [kstep, hts]
        rw [hgo]
        have hlen : t < c.ts.length := (List.getElem?_eq_some.mp hts).1
        refine ⟨?_, ?_⟩
        · intro u k2 hu
          rcases eq_or_ne u t with rfl | hut
          · rw [List.getElem?_set_self hlen] at hu
            cases hu
          · rw [List.getElem?_set_ne (Ne.symm hut)] at hu
            refine Finset.mem_erase.mpr ⟨fun hk2 => ?_, hlink u k2 hu⟩
            exact hut (huniq u t k2 hu (hk2 ▸ hts))
        · intro t1 t2 k2 h1 h2
          rcases eq_or_ne t1 t with rfl | h1t
          · rw [List.getElem?_set_self hlen] at h1
            cases h1
          · rw [List.getElem?_set_ne (Ne.symm h1t)] at h1
            rcases eq_or_ne t2 t with rfl | h2t
            · rw [List.getElem?_set_self hlen] at h2
              cases h2
            · rw [List.getElem?_set_ne (Ne.symm h2t)] at h2
              exact huniq t1 t2 k2 h1 h2

lemma runK_inv (acts : List KAct) (c : KConf) (h : KInv c) : KInv (runK c acts) := by
  induction acts generalizing c with
  | nil => exact h
  | cons a rest ih => exact ih (kstep c a) (kstep_inv c a h)

/-- Claim C2: in every execution of the `kmutex` protocol from a fresh
shard set, at most one caller holds any given 64-bit key at any
instant — `Lock(kid)` stays in its wait loop until `kid` is absent
from the held set of shard `kid % mCount` and only then marks it held,
and `Unlock(kid)` unmarks it and broadcasts to the shard's waiters. -/
theorem kmutex_mutual_exclusion (ds : List Nat) (acts : List KAct) :
    KInv (runK (initK ds) acts) := by
  refine runK_inv acts (initK ds) ⟨?_, ?_⟩
  · intro t k h
    rw [initK, List.getElem?_map] at h
    cases hd : ds[t]? with
    | none => rw [hd] at h; cases h
    | some d => rw [hd] at h; cases h
  · intro t1 t2 k h1 _
    rw [initK, List.getElem?_map] at h1
    cases hd : ds[t1]? with
    | none => rw [hd] at h1; cases h1
    | some d => rw [hd] at h1; cases h1

/-- Observable events of `Store.FlushLoop`: setting the stopped flag
under the engine lock, one `p.Flush()` call returning `n`, and the
1 ms `time.Sleep` taken when a flush reported zero pending work. -/
inductive LEv
  | setStopped
  | flushed (n : Int)
  | slept
deriving DecidableEq, Repr

/-- The shutdown inner loop of `FlushLoop`
(`for { pending := p.Flush(); if pending == 0 { return nil } }`),
with explicit fuel: `none` is a panic inside `Flush`; the final `Bool`
is true iff the loop exited via `return nil` within the fuel. -/
def drain : Nat → MState → Option (MState × List LEv × Bool)
  | 0, s => some (s, [], false)
  | fuel + 1, s =>
    match Flush s with
    | none => none
    | some (s2, n) =>
      if n = 0 then some (s2, [.flushed n], true)
      else
        match drain fuel s2 with
        | none => none
        | some (s3, evs, fin) => some (s3, .flushed n :: evs, fin)

/-- Embedding of `Store.FlushLoop` with explicit fuel.  `ctx i` tells
whether `ctx.Done()` is already closed at loop iteration `i` (the
`select` takes the `default` branch iff it is not).  On the shutdown
branch it sets `stopped := true` under the engine lock and drains; on
the default branch it flushes and sleeps 1 ms iff the flush returned
zero pending work. -/
def FlushLoopRun : Nat → (Nat → Bool) → Nat → MState → Option (MState × List LEv × Bool)
  | 0, _, _, s => some (s, [], false)
  | fuel + 1, ctx, i, s =>
    if ctx i then
      match drain (fuel + 1) { s with stopped := true } with
      | none => none
      | some (s2, evs, fin) => some (s2, .setStopped :: evs, fin)
    else
      match Flush s with
      | none => none
      | some (s2, n) =>
        if n = 0 then
          match FlushLoopRun fuel ctx (i + 1) s2 with
          | none => none
          | some (s3, evs, fin) => some (s3, .flushed n :: .slept :: evs, fin)
        else
          match FlushLoopRun fuel ctx (i + 1) s2 with
          | none => none
          | some (s3, evs, fin) => some (s3, .flushed n :: evs, fin)

/-- Claim C9: the flush loop (with fuel left) behaves as follows.
On the shutdown signal it first sets `stopped := true` and then runs
only the drain loop; a drain iteration whose flush returns pending 0
exits immediately with success (`return nil`); a drain iteration whose
flush returns nonzero pending just flushes again — it never sleeps.
Without the signal the loop flushes, and sleeps ~1 ms exactly when the
call reported zero work before iterating. -/
theorem flushLoop_structure (fuel i : Nat) (ctx : Nat → Bool) (s s2 : MState) (n : Int) :
    (ctx i = true →
      FlushLoopRun (fuel + 1) ctx i s =
        Option.map (fun r => (r.1, LEv.setStopped :: r.2.1, r.2.2))
          (drain (fuel + 1) { s with stopped := true })) ∧
    (Flush s = some (s2, 0) → drain (fuel + 1) s = some (s2, [.flushed 0], true)) ∧
    (Flush s = some (s2, n) → n ≠ 0 →
      drain (fuel + 1) s =
        Option.map (fun r => (r.1, LEv.flushed n :: r.2.1, r.2.2)) (drain fuel s2)) ∧
    (ctx i = false → Flush s = some (s2, 0) →
      FlushLoopRun (fuel + 1) ctx i s =
        Option.map (fun r => (r.1, LEv.flushed 0 :: LEv.slept :: r.2.1, r.2.2))
          (FlushLoopRun fuel ctx (i + 1) s2)) ∧
    (ctx i = false → Flush s = some (s2, n) → n ≠ 0 →
      FlushLoopRun (fuel + 1) ctx i s =
        Option.map (fun r => (r.1, LEv.flushed n :: r.2.1, r.2.2))
          (FlushLoopRun fuel ctx (i + 1) s2)) := by
  refine ⟨fun hc => ?_, fun hf => ?_, fun hf hn => ?_, fun hc hf => ?_, fun hc hf hn => ?_⟩
  · simp only [FlushLoopRun, hc, if_pos]
    cases drain (fuel + 1) { s with stopped := true } with
    | none => rfl
    | some r => rfl
  · simp [drain, hf]
  · simp only [drain, hf, hn, if_neg]
    cases drain fuel s2 with
    | none => rfl
    | some r => rfl
  · simp only [FlushLoopRun, hc, if_neg, Bool.false_eq_true, not_false_iff, hf, if_pos]
    cases FlushLoopRun fuel ctx (i + 1) s2 with
    | none => rfl
    | some r => rfl
  · simp only [FlushLoopRun, hc, Bool.false_eq_true, if_neg, not_false_iff, hf, hn]
    cases FlushLoopRun fuel ctx (i + 1) s2 with
    | none => rfl
    | some r => rfl

/-- Witness for `flushLoop_structure`: with the shutdown signal raised
from the start and no pending work, one loop iteration sets `stopped`,
flushes once (the flush reports pending 0, closes generation 0 and
touches nothing else), and exits successfully. -/
theorem flushLoop_structure_witness :
    FlushLoopRun 1 (fun _ => true) 0 initState =
      some ({ initState with stopped := true, gen := 1, closed := [0] },
        [LEv.setStopped, LEv.flushed 0], true) := by
  have h1 := (flushLoop_structure 0 0 (fun _ => true) initState
    { initState with stopped := true, gen := 1, closed := [0] } 0).1 rfl
  have h2 := (flushLoop_structure 0 0 (fun _ => true)
    { initState with stopped := true }
    { initState with stopped := true, gen := 1, closed := [0] } 0).2.1 (by decide)
  rw [h1, h2]
  rfl

end CDTools
